import Mathlib

/-!
# Verification of the NEAR trading dashboard ingestion/aggregation pipeline

Shallow embedding of the data-ingestion and aggregation code of the
dashboard (`src/lib/coingecko.ts`, `src/lib/utils.ts`,
`src/app/api/volumes/route.ts`, `src/app/api/volumes/history/exchanges/route.ts`)
together with proofs about it.

Conventions of the embedding:
* JavaScript numbers are modelled as exact rationals (`ℚ`); the only place
  where IEEE-754 non-finite values matter (division by zero) is modelled
  explicitly by the `JsNum` type below.
* `Date` timestamps are modelled as integer milliseconds; functions that
  read the wall clock (`new Date()`, `Date.now()`) take the current time
  as an explicit argument.
* JavaScript `Map`s are modelled as insertion-ordered association lists:
  `set` on an existing key updates the entry in place, `set` on a fresh key
  appends at the end — exactly the iteration order of a JS `Map`.
* `Array.prototype.sort` with a consistent comparator is (per ES2019)
  a stable sort wrt the comparator; the stable sorted permutation of a list
  is unique, so it is modelled by `List.insertionSort`, which Mathlib proves
  stable and sorted.
* `async` functions whose failure matters are modelled with `Except`;
  `Promise.all` is the applicative combination that fails if any component
  fails.
* Response fields that the transformation code never reads are omitted
  from the embedded request/response structures.
-/

/-- IEEE-754 double results as produced by JavaScript arithmetic on exact
inputs: a finite value, an infinity, or NaN. -/
inductive JsNum where
  | num (q : ℚ)
  | posInf
  | negInf
  | nan
deriving DecidableEq, Repr

/-- JavaScript division `a / b` of two finite numbers: ordinary division for
a nonzero denominator, an infinity (or NaN for `0 / 0`) for a zero
denominator. JS never throws on division. -/
def jsDiv (a b : ℚ) : JsNum :=
  if b ≠ 0 then .num (a / b)
  else if 0 < a then .posInf
  else if a < 0 then .negInf
  else .nan

/-- JavaScript multiplication of a (possibly non-finite) value by a positive
finite constant, enough to express `x * 100`. -/
def jsMulPos (x : JsNum) (c : ℚ) : JsNum :=
  match x with
  | .num q => .num (q * c)
  | .posInf => .posInf
  | .negInf => .negInf
  | .nan => .nan

/-! ## Data model (`src/types/index.ts`) -/

/-- `CoinGeckoTicker.market` (fields used by the code). -/
structure TickerMarket where
  name : String
deriving DecidableEq, Repr

/-- `CoinGeckoTicker.converted_volume` (the code only reads `.usd`). -/
structure ConvertedVolume where
  usd : ℚ
deriving DecidableEq, Repr

/-- One raw ticker from `/coins/near/tickers` (fields used by the code). -/
structure CoinGeckoTicker where
  base : String
  target : String
  market : TickerMarket
  volume : ℚ
  converted_volume : ConvertedVolume
  trust_score : Option String
  is_anomaly : Bool
  is_stale : Bool
  trade_url : Option String
deriving DecidableEq, Repr

/-- `/coins/near/tickers` response. -/
structure CoinGeckoTickersResponse where
  name : String
  tickers : List CoinGeckoTicker
deriving DecidableEq, Repr

/-- Aggregated per-exchange volume record (`ExchangeVolume`). -/
structure ExchangeVolume where
  name : String
  volume_usd : ℚ
  volume_near : ℚ
  trading_pairs : List String
  trust_score : Option String
  trade_url : Option String
deriving DecidableEq, Repr

/-- Volume snapshot stored in MongoDB (`VolumeDocument`, without `_id`). -/
structure VolumeDocument where
  timestamp : ℤ
  total_volume_usd : ℚ
  total_volume_near : ℚ
  exchange_count : ℕ
  exchanges : List ExchangeVolume
deriving DecidableEq, Repr

/-! ## Ticker normalization (`transformVolumeData`, `src/lib/coingecko.ts`) -/

/-- The trading-pair label pushed into `trading_pairs`:
`` `${ticker.base}/${ticker.target}` ``. -/
def pairLabel (t : CoinGeckoTicker) : String :=
  t.base ++ "/" ++ t.target

/-- `ticker.trade_url || undefined`: JS `||` maps both `null` and the empty
string to `undefined`. -/
def tradeUrlOrUndefined (u : Option String) : Option String :=
  match u with
  | none => none
  | some s => if s = "" then none else some s

/-- The fresh `Map` entry created for an exchange seen for the first time. -/
def newExchangeEntry (t : CoinGeckoTicker) : ExchangeVolume :=
  { name := t.market.name
    volume_usd := t.converted_volume.usd
    volume_near := t.volume
    trading_pairs := [pairLabel t]
    trust_score := t.trust_score
    trade_url := tradeUrlOrUndefined t.trade_url }

/-- The in-place update of an existing exchange entry: volumes are added,
the pair label is pushed only if not already present; trust score and trade
URL keep their first-seen values. -/
def updateExchangeEntry (e : ExchangeVolume) (t : CoinGeckoTicker) : ExchangeVolume :=
  { e with
    volume_usd := e.volume_usd + t.converted_volume.usd
    volume_near := e.volume_near + t.volume
    trading_pairs :=
      if pairLabel t ∈ e.trading_pairs then e.trading_pairs
      else e.trading_pairs ++ [pairLabel t] }

/-- `exchangeMap.get(name)` followed by update-or-`set`: JS `Map` semantics
(update the existing entry in place, else append a new entry). -/
def addTicker (t : CoinGeckoTicker) : List ExchangeVolume → List ExchangeVolume
  | [] => [newExchangeEntry t]
  | e :: rest =>
    if e.name = t.market.name then updateExchangeEntry e t :: rest
    else e :: addTicker t rest

/-- A ticker survives the staleness/anomaly filter. -/
def tickerValid (t : CoinGeckoTicker) : Bool :=
  !(t.is_anomaly || t.is_stale)

/-- One iteration of the `for (const ticker of data.tickers)` loop. -/
def exchangeStep (m : List ExchangeVolume) (t : CoinGeckoTicker) : List ExchangeVolume :=
  if t.is_anomaly || t.is_stale then m else addTicker t m

/-- The exchange `Map` after the aggregation loop, as the insertion-ordered
list of its values. -/
def buildExchangeMap (ts : List CoinGeckoTicker) : List ExchangeVolume :=
  ts.foldl exchangeStep []

/-- The comparator `(a, b) => b.volume_usd - a.volume_usd`: `a` precedes `b`
when `a`'s USD volume is at least `b`'s. -/
def volGe (a b : ExchangeVolume) : Prop :=
  b.volume_usd ≤ a.volume_usd

instance : DecidableRel volGe := fun a b =>
  inferInstanceAs (Decidable (b.volume_usd ≤ a.volume_usd))

instance : IsTotal ExchangeVolume volGe :=
  ⟨fun a b => le_total b.volume_usd a.volume_usd⟩

instance : IsTrans ExchangeVolume volGe :=
  ⟨fun _ _ _ h1 h2 => le_trans h2 h1⟩

/-- `Array.from(exchangeMap.values()).sort((a, b) => b.volume_usd - a.volume_usd)`:
the stable descending sort of the aggregated exchange list. -/
def sortedExchanges (ts : List CoinGeckoTicker) : List ExchangeVolume :=
  List.insertionSort volGe (buildExchangeMap ts)

/-- `transformVolumeData` (`src/lib/coingecko.ts`). `now` is the value of
`new Date()`. -/
def transformVolumeData (now : ℤ) (data : CoinGeckoTickersResponse) : VolumeDocument :=
  let exchanges := sortedExchanges data.tickers
  { timestamp := now
    total_volume_usd := exchanges.foldl (fun sum e => sum + e.volume_usd) 0
    total_volume_near := exchanges.foldl (fun sum e => sum + e.volume_near) 0
    exchange_count := exchanges.length
    exchanges := exchanges.take 20 }

/-! ## Price snapshot building (`transformPriceData`, `src/lib/coingecko.ts`) -/

/-- `data.near` in the `/simple/price` response. -/
structure NearPriceEntry where
  usd : ℚ
  usd_market_cap : Option ℚ
  usd_24h_vol : Option ℚ
  usd_24h_change : Option ℚ
deriving DecidableEq, Repr

/-- `data.bitcoin` / `data.ethereum` in the `/simple/price` response. -/
structure RefPriceEntry where
  usd : ℚ
deriving DecidableEq, Repr

/-- `/simple/price` response. -/
structure CoinGeckoPriceResponse where
  near : NearPriceEntry
  bitcoin : RefPriceEntry
  ethereum : RefPriceEntry
deriving DecidableEq, Repr

/-- A `{ usd: number }` quote inside `market_data`. -/
structure UsdQuote where
  usd : ℚ
deriving DecidableEq, Repr

/-- A `{ usd: string }` date quote inside `market_data`. -/
structure UsdDateQuote where
  usd : String
deriving DecidableEq, Repr

/-- `market_data` of the `/coins/near` response (fields used by the code). -/
structure CoinMarketData where
  ath : UsdQuote
  ath_change_percentage : UsdQuote
  ath_date : UsdDateQuote
  atl : UsdQuote
  atl_change_percentage : UsdQuote
  high_24h : UsdQuote
  low_24h : UsdQuote
  price_change_percentage_7d : ℚ
  price_change_percentage_30d : ℚ
  circulating_supply : ℚ
  total_supply : ℚ
  fully_diluted_valuation : UsdQuote
deriving DecidableEq, Repr

/-- `/coins/near` response (fields used by the code). -/
structure CoinGeckoCoinResponse where
  market_cap_rank : ℚ
  market_data : CoinMarketData
deriving DecidableEq, Repr

/-- Price snapshot stored in MongoDB (`PriceDocument`, without `_id`).
The cross-rates are JS division results, so they live in `JsNum`; the
enrichment fields are optional exactly as in the TypeScript interface. -/
structure PriceDocument where
  timestamp : ℤ
  near_usd : ℚ
  btc_usd : ℚ
  eth_usd : ℚ
  near_btc : JsNum
  near_eth : JsNum
  market_cap : Option ℚ
  volume_24h : Option ℚ
  price_change_24h : Option ℚ
  market_cap_rank : Option ℚ
  ath : Option ℚ
  ath_change_percentage : Option ℚ
  ath_date : Option String
  atl : Option ℚ
  atl_change_percentage : Option ℚ
  price_change_7d : Option ℚ
  price_change_30d : Option ℚ
  high_24h : Option ℚ
  low_24h : Option ℚ
  circulating_supply : Option ℚ
  total_supply : Option ℚ
  fully_diluted_valuation : Option ℚ
deriving DecidableEq, Repr

/-- `transformPriceData` (`src/lib/coingecko.ts`): builds the core spot
fields unconditionally (the cross-rates are plain JS divisions, with no
zero test anywhere), then merges the enrichment fields when `coinData` is
present. The function is total: the TypeScript body contains no `throw`. -/
def transformPriceData (now : ℤ) (data : CoinGeckoPriceResponse)
    (coinData : Option CoinGeckoCoinResponse) : PriceDocument :=
  let nearUsd := data.near.usd
  let btcUsd := data.bitcoin.usd
  let ethUsd := data.ethereum.usd
  let baseData : PriceDocument :=
    { timestamp := now
      near_usd := nearUsd
      btc_usd := btcUsd
      eth_usd := ethUsd
      near_btc := jsDiv nearUsd btcUsd
      near_eth := jsDiv nearUsd ethUsd
      market_cap := data.near.usd_market_cap
      volume_24h := data.near.usd_24h_vol
      price_change_24h := data.near.usd_24h_change
      market_cap_rank := none
      ath := none
      ath_change_percentage := none
      ath_date := none
      atl := none
      atl_change_percentage := none
      price_change_7d := none
      price_change_30d := none
      high_24h := none
      low_24h := none
      circulating_supply := none
      total_supply := none
      fully_diluted_valuation := none }
  match coinData with
  | some c =>
    let md := c.market_data
    { baseData with
      market_cap_rank := some c.market_cap_rank
      ath := some md.ath.usd
      ath_change_percentage := some md.ath_change_percentage.usd
      ath_date := some md.ath_date.usd
      atl := some md.atl.usd
      atl_change_percentage := some md.atl_change_percentage.usd
      price_change_7d := some md.price_change_percentage_7d
      price_change_30d := some md.price_change_percentage_30d
      high_24h := some md.high_24h.usd
      low_24h := some md.low_24h.usd
      circulating_supply := some md.circulating_supply
      total_supply := some md.total_supply
      fully_diluted_valuation := some md.fully_diluted_valuation.usd }
  | none => baseData

/-! ## Combined fetch (`fetchAllData`, `src/lib/coingecko.ts`) -/

/-- The record returned by `fetchAllData`. -/
structure FetchAllResult where
  prices : PriceDocument
  volumes : VolumeDocument
deriving DecidableEq, Repr

/-- `fetchAllData`: `Promise.all` over the three provider calls — the cycle
succeeds only if all three succeed — followed by the two transformations.
The three fetch outcomes are passed in as `Except` values. -/
def fetchAllData (now : ℤ)
    (priceRes : Except String CoinGeckoPriceResponse)
    (coinRes : Except String CoinGeckoCoinResponse)
    (tickerRes : Except String CoinGeckoTickersResponse) :
    Except String FetchAllResult := do
  let priceData ← priceRes
  let coinData ← coinRes
  let tickerData ← tickerRes
  pure { prices := transformPriceData now priceData (some coinData)
         volumes := transformVolumeData now tickerData }

/-! ## Rate limiting (`checkRateLimit` / `waitForRateLimit` /
`fetchFromCoinGecko`, `src/lib/coingecko.ts`) -/

/-- `RATE_LIMIT.CALLS_PER_MINUTE`. -/
def CALLS_PER_MINUTE : ℕ := 25

/-- `RATE_LIMIT.RESET_INTERVAL` in milliseconds. -/
def RESET_INTERVAL : ℤ := 60 * 1000

/-- The module-level mutable rate-limit state (`callCount`, `lastResetTime`). -/
structure RateLimitState where
  callCount : ℕ
  lastResetTime : ℤ
deriving DecidableEq, Repr

/-- `checkRateLimit()`: reset the counter if the window expired, refuse if
saturated, otherwise increment and accept. `now` is `Date.now()`. -/
def checkRateLimit (now : ℤ) (s : RateLimitState) : Bool × RateLimitState :=
  let s1 := if RESET_INTERVAL < now - s.lastResetTime then
      { callCount := 0, lastResetTime := now }
    else s
  if CALLS_PER_MINUTE ≤ s1.callCount then (false, s1)
  else (true, { s1 with callCount := s1.callCount + 1 })

/-- `waitForRateLimit()`: if the window has time left, sleep until it is
over (plus 100 ms) and zero the counter. Returns the new `Date.now()`
together with the new state. -/
def waitForRateLimit (now : ℤ) (s : RateLimitState) : ℤ × RateLimitState :=
  let timeUntilReset := RESET_INTERVAL - (now - s.lastResetTime)
  if 0 < timeUntilReset then
    let now2 := now + timeUntilReset + 100
    (now2, { callCount := 0, lastResetTime := now2 })
  else (now, s)

/-- The rate-limit bookkeeping at the top of `fetchFromCoinGecko`:
`if (!checkRateLimit()) await waitForRateLimit()`.  Returns the time and
shared state at the moment the HTTP request is issued. -/
def rateLimitPrelude (now : ℤ) (s : RateLimitState) : ℤ × RateLimitState :=
  match checkRateLimit now s with
  | (true, s1) => (now, s1)
  | (false, s1) => waitForRateLimit now s1

/-- The 429 branch of `fetchFromCoinGecko`: `await waitForRateLimit()` and
then re-enter `fetchFromCoinGecko`, whose own prelude runs again. Returns
the time and state at which the retried HTTP request is issued. -/
def retryAfter429 (now : ℤ) (s : RateLimitState) : ℤ × RateLimitState :=
  let ws := waitForRateLimit now s
  rateLimitPrelude ws.1 ws.2

/-! ## Utilities (`src/lib/utils.ts`) -/

/-- `calculatePercentage(value, total)`. -/
def calculatePercentage (value total : ℚ) : ℚ :=
  if total = 0 then 0 else value / total * 100

/-! ## Volume distribution and 24h change (`GET /api/volumes`,
`src/app/api/volumes/route.ts`) -/

/-- `EXCHANGE_CONFIG.MAX_DISPLAY_EXCHANGES` (`src/lib/constants.ts`). -/
def MAX_DISPLAY_EXCHANGES : ℕ := 10

/-- `EXCHANGE_CONFIG.EXCHANGE_COLORS` (`src/lib/constants.ts`). -/
def EXCHANGE_COLORS : List String :=
  ["#58a6ff", "#3fb950", "#f85149", "#a371f7", "#db61a2",
   "#f0883e", "#8b949e", "#7ee787", "#79c0ff", "#d2a8ff"]

/-- One pie-chart bucket (`ExchangePieData`). `color` is optional because a
JS out-of-range index read yields `undefined`. -/
structure ExchangePieData where
  name : String
  value : ℚ
  percentage : ℚ
  color : Option String
deriving DecidableEq, Repr

/-- The `.map((exchange, index) => ...)` building the displayed buckets:
one entry per shown exchange, carrying its percentage of `total` and the
color at its index. -/
def pieEntries (total : ℚ) : ℕ → List ExchangeVolume → List ExchangePieData
  | _, [] => []
  | i, e :: rest =>
    { name := e.name
      value := e.volume_usd
      percentage := calculatePercentage e.volume_usd total
      color := EXCHANGE_COLORS.get? i } :: pieEntries total (i + 1) rest

/-- The volume folded into the synthetic "Others" bucket: the sum of
`volume_usd` over the stored exchanges beyond the first
`MAX_DISPLAY_EXCHANGES`. -/
def othersVolume (v : VolumeDocument) : ℚ :=
  (v.exchanges.drop MAX_DISPLAY_EXCHANGES).foldl (fun sum e => sum + e.volume_usd) 0

/-- The distribution array built by `GET /api/volumes` from the latest
stored volume snapshot: the first `MAX_DISPLAY_EXCHANGES` stored exchanges,
plus an "Others" bucket when more exchanges are stored. -/
def distributionOf (v : VolumeDocument) : List ExchangePieData :=
  let base := pieEntries v.total_volume_usd 0 (v.exchanges.take MAX_DISPLAY_EXCHANGES)
  if MAX_DISPLAY_EXCHANGES < v.exchanges.length then
    base ++ [{ name := "Others"
               value := othersVolume v
               percentage := calculatePercentage (othersVolume v) v.total_volume_usd
               color := some "#484f58" }]
  else base

/-- `findOne({}, { sort: { timestamp: -1 } })`: the first stored document
with maximal timestamp. -/
def latestVolume (docs : List VolumeDocument) : Option VolumeDocument :=
  docs.foldl (fun acc d =>
    match acc with
    | none => some d
    | some a => if a.timestamp < d.timestamp then some d else acc) none

/-- `findOne({ timestamp: { $gte: start } }, { sort: { timestamp: 1 } })`:
the first document with minimal timestamp among those at or after `start`. -/
def oldestVolumeSince (docs : List VolumeDocument) (start : ℤ) : Option VolumeDocument :=
  (docs.filter (fun d => start ≤ d.timestamp)).foldl (fun acc d =>
    match acc with
    | none => some d
    | some a => if d.timestamp < a.timestamp then some d else acc) none

/-- The 24-hour volume change computed by `GET /api/volumes`: `none` when
the store is empty (the route answers 404); otherwise zero unless an
oldest-in-window snapshot exists *and* its total volume is truthy
(nonzero), in which case it is the relative change in percent. -/
def volumeChange24h (docs : List VolumeDocument) (now : ℤ) : Option ℚ :=
  (latestVolume docs).map (fun latest =>
    match oldestVolumeSince docs (now - 24 * 60 * 60 * 1000) with
    | none => 0
    | some o =>
      if o.total_volume_usd = 0 then 0
      else (latest.total_volume_usd - o.total_volume_usd) / o.total_volume_usd * 100)

/-- The percent-change formula exactly as the spec states it,
`(latest - earliest) / earliest * 100`, evaluated with JavaScript
arithmetic (so a zero `earliest` yields an infinity or NaN, not zero). -/
def specChangeFormula (latest earliest : ℚ) : JsNum :=
  jsMulPos (jsDiv (latest - earliest) earliest) 100

/-! ## Exchange volume history (`GET /api/volumes/history/exchanges`,
`src/app/api/volumes/history/exchanges/route.ts`) -/

/-- `Math.floor(doc.timestamp.getTime() / 1000)`: milliseconds to whole
seconds, rounding toward minus infinity. -/
def floorSec (ms : ℤ) : ℤ := ⌊(ms : ℚ) / 1000⌋

/-- `exchangeTotals.set(name, (exchangeTotals.get(name) || 0) + vol)`:
update the running total of an existing key in place, else append. -/
def bumpTotal (name : String) (vol : ℚ) : List (String × ℚ) → List (String × ℚ)
  | [] => [(name, vol)]
  | p :: rest =>
    if p.1 = name then (p.1, p.2 + vol) :: rest
    else p :: bumpTotal name vol rest

/-- The per-exchange totals across all snapshots in the window, in first-seen
order. -/
def exchangeTotals (docs : List VolumeDocument) : List (String × ℚ) :=
  docs.foldl (fun m d => d.exchanges.foldl (fun m e => bumpTotal e.name e.volume_usd m) m) []

/-- The comparator `(a, b) => b[1] - a[1]` on `[name, total]` entries. -/
def totGe (a b : String × ℚ) : Prop := b.2 ≤ a.2

instance : DecidableRel totGe := fun a b =>
  inferInstanceAs (Decidable (b.2 ≤ a.2))

instance : IsTotal (String × ℚ) totGe :=
  ⟨fun a b => le_total b.2 a.2⟩

instance : IsTrans (String × ℚ) totGe :=
  ⟨fun _ _ _ h1 h2 => le_trans h2 h1⟩

/-- The names of the top exchanges selected by the route: entries sorted by
descending total, truncated to `Math.min(limit, 8)`. -/
def topExchangeNames (docs : List VolumeDocument) (limit : ℕ) : List String :=
  ((List.insertionSort totGe (exchangeTotals docs)).take (min limit 8)).map (fun p => p.1)

/-- `volumeMap.get(name) || 0` where `volumeMap` was filled by iterating the
snapshot's stored exchanges (the last `set` for a name wins): the exchange's
stored USD volume, or `0` when the exchange is absent from the snapshot's
stored list (`|| 0` also maps a stored `0` to `0`). -/
def exVolumeAt (d : VolumeDocument) (name : String) : ℚ :=
  match d.exchanges.reverse.find? (fun e => e.name == name) with
  | some e => e.volume_usd
  | none => 0

/-- The time series built for one selected exchange: one `(time, value)`
point per snapshot in the window, in snapshot order. -/
def seriesFor (docs : List VolumeDocument) (name : String) : List (ℤ × ℚ) :=
  docs.map (fun d => (floorSec d.timestamp, exVolumeAt d name))

/-- `[...new Set(timestamps)]`: deduplication keeping the first occurrence
of each element, in insertion order (JS `Set` iteration order). -/
def jsSetDedupAux (seen : List ℤ) : List ℤ → List ℤ
  | [] => []
  | x :: xs =>
    if x ∈ seen then jsSetDedupAux seen xs
    else x :: jsSetDedupAux (x :: seen) xs

/-- `[...new Set(l)]`. -/
def jsSetDedup (l : List ℤ) : List ℤ := jsSetDedupAux [] l

/-- The `timestamps` field of the response: the per-snapshot floored
timestamps, deduplicated. -/
def responseTimestamps (docs : List VolumeDocument) : List ℤ :=
  jsSetDedup (docs.map (fun d => floorSec d.timestamp))

/-! ## Helper lemmas: sums of folds -/

/-- A `reduce((sum, e) => sum + f(e), s)` is `s` plus the sum of the mapped
list. -/
theorem foldl_add_map {α : Type} (f : α → ℚ) :
    ∀ (l : List α) (s : ℚ), l.foldl (fun acc x => acc + f x) s = s + (l.map f).sum
  | [], s => by simp
  | x :: l, s => by
    rw [List.foldl_cons, foldl_add_map f l (s + f x)]
    simp [add_assoc]

/-! ## Helper lemmas: the aggregated exchange map -/

/-- The value of the accessor `f` on the bucket stored under `name`, or `0`
when no bucket exists. -/
def bucketVal (f : ExchangeVolume → ℚ) (m : List ExchangeVolume) (name : String) : ℚ :=
  match m.find? (fun e => e.name == name) with
  | some e => f e
  | none => 0

/-- The contribution of one ticker to the bucket named `name` under the
staleness/anomaly filter. -/
def tickerContrib (g : CoinGeckoTicker → ℚ) (name : String) (t : CoinGeckoTicker) : ℚ :=
  if tickerValid t = true ∧ t.market.name = name then g t else 0

theorem updateExchangeEntry_name (e : ExchangeVolume) (t : CoinGeckoTicker) :
    (updateExchangeEntry e t).name = e.name := rfl

theorem newExchangeEntry_name (t : CoinGeckoTicker) :
    (newExchangeEntry t).name = t.market.name := rfl

theorem bucketVal_nil (f : ExchangeVolume → ℚ) (name : String) :
    bucketVal f [] name = 0 := rfl

theorem bucketVal_cons (f : ExchangeVolume → ℚ) (e : ExchangeVolume)
    (rest : List ExchangeVolume) (name : String) :
    bucketVal f (e :: rest) name
      = if e.name = name then f e else bucketVal f rest name := by
  by_cases h : e.name = name
  · rw [bucketVal, List.find?_cons_of_pos _ (by simpa using h), if_pos h]
  · rw [bucketVal, List.find?_cons_of_neg _ (by simpa using h), if_neg h]
    rfl

theorem bucketVal_addTicker (f : ExchangeVolume → ℚ) (g : CoinGeckoTicker → ℚ)
    (hupd : ∀ e t, f (updateExchangeEntry e t) = f e + g t)
    (hnew : ∀ t, f (newExchangeEntry t) = g t)
    (t : CoinGeckoTicker) (name : String) :
    ∀ m, bucketVal f (addTicker t m) name
      = bucketVal f m name + (if t.market.name = name then g t else 0)
  | [] => by
    by_cases h : t.market.name = name
    · simp [addTicker, bucketVal_cons, bucketVal_nil, newExchangeEntry_name, h, hnew]
    · simp [addTicker, bucketVal_cons, bucketVal_nil, newExchangeEntry_name, h]
  | e :: rest => by
    by_cases he : e.name = t.market.name
    · by_cases hn : e.name = name
      · have hm : t.market.name = name := he ▸ hn
        simp [addTicker, he.symm, bucketVal_cons, updateExchangeEntry_name, hn, hm, hupd]
      · have hm : ¬ t.market.name = name := he ▸ hn
        simp [addTicker, he.symm, bucketVal_cons, updateExchangeEntry_name, hn, hm]
    · by_cases hn : e.name = name
      · have hm : ¬ t.market.name = name := fun h => he (hn.trans h.symm)
        have he2 : ¬ name = t.market.name := fun h => hm h.symm
        simp [addTicker, he2, bucketVal_cons, hn, hm]
      · have ih := bucketVal_addTicker f g hupd hnew t name rest
        simp [addTicker, he, bucketVal_cons, hn, ih]

theorem bucketVal_foldl (f : ExchangeVolume → ℚ) (g : CoinGeckoTicker → ℚ)
    (hupd : ∀ e t, f (updateExchangeEntry e t) = f e + g t)
    (hnew : ∀ t, f (newExchangeEntry t) = g t) (name : String) :
    ∀ (ts : List CoinGeckoTicker) (m : List ExchangeVolume),
      bucketVal f (ts.foldl exchangeStep m) name
        = bucketVal f m name + (ts.map (tickerContrib g name)).sum
  | [], m => by simp
  | t :: ts, m => by
    rw [List.foldl_cons, bucketVal_foldl f g hupd hnew name ts (exchangeStep m t)]
    by_cases hv : (t.is_anomaly || t.is_stale)
    · have : tickerContrib g name t = 0 := by
        simp [tickerContrib, tickerValid, hv]
      simp [exchangeStep, hv, this]
    · have hstep : exchangeStep m t = addTicker t m := by simp [exchangeStep, hv]
      have : tickerContrib g name t = if t.market.name = name then g t else 0 := by
        simp [tickerContrib, tickerValid, hv]
      rw [hstep, bucketVal_addTicker f g hupd hnew t name m]
      simp [this, add_assoc]

/-- The bucket value for `name` in the aggregated exchange map is exactly the
sum of the contributions of the valid tickers naming that exchange. -/
theorem bucketVal_build (f : ExchangeVolume → ℚ) (g : CoinGeckoTicker → ℚ)
    (hupd : ∀ e t, f (updateExchangeEntry e t) = f e + g t)
    (hnew : ∀ t, f (newExchangeEntry t) = g t)
    (ts : List CoinGeckoTicker) (name : String) :
    bucketVal f (buildExchangeMap ts) name = (ts.map (tickerContrib g name)).sum := by
  rw [buildExchangeMap, bucketVal_foldl f g hupd hnew name ts []]
  simp [bucketVal, List.find?]

/-! ## Helper lemmas: exchange names in the aggregated map -/

theorem names_addTicker (t : CoinGeckoTicker) :
    ∀ m, (addTicker t m).map (fun e => e.name)
      = if t.market.name ∈ m.map (fun e => e.name) then m.map (fun e => e.name)
        else m.map (fun e => e.name) ++ [t.market.name]
  | [] => by simp [addTicker, newExchangeEntry_name]
  | e :: rest => by
    by_cases he : e.name = t.market.name
    · simp [addTicker, he, updateExchangeEntry_name]
    · have hne : ¬ t.market.name = e.name := fun h => he h.symm
      by_cases hmem : t.market.name ∈ rest.map (fun e => e.name)
      · simp [addTicker, he, names_addTicker t rest, hmem, hne]
      · simp [addTicker, he, names_addTicker t rest, hmem, hne]

theorem mem_names_addTicker (t : CoinGeckoTicker) (x : String) (m : List ExchangeVolume) :
    x ∈ (addTicker t m).map (fun e => e.name)
      ↔ x ∈ m.map (fun e => e.name) ∨ x = t.market.name := by
  rw [names_addTicker]
  by_cases hmem : t.market.name ∈ m.map (fun e => e.name)
  · rw [if_pos hmem]
    constructor
    · exact fun h => .inl h
    · rintro (h | rfl)
      · exact h
      · exact hmem
  · rw [if_neg hmem]
    simp

theorem mem_names_foldl (x : String) :
    ∀ (ts : List CoinGeckoTicker) (m : List ExchangeVolume),
      x ∈ ((ts.foldl exchangeStep m).map (fun e => e.name))
        ↔ x ∈ m.map (fun e => e.name)
          ∨ ∃ t, t ∈ ts ∧ tickerValid t = true ∧ t.market.name = x
  | [], m => by simp
  | t :: ts, m => by
    rw [List.foldl_cons, mem_names_foldl x ts (exchangeStep m t)]
    by_cases hv : (t.is_anomaly || t.is_stale) = true
    · have hnv : ¬ tickerValid t = true := by simp [tickerValid, hv]
      rw [exchangeStep, if_pos hv]
      constructor
      · rintro (h | ⟨u, hu, hval, hname⟩)
        · exact .inl h
        · exact .inr ⟨u, List.mem_cons_of_mem t hu, hval, hname⟩
      · rintro (h | ⟨u, hu, hval, hname⟩)
        · exact .inl h
        · rcases List.mem_cons.mp hu with rfl | hu2
          · exact absurd hval hnv
          · exact .inr ⟨u, hu2, hval, hname⟩
    · have hval : tickerValid t = true := by simp [tickerValid, hv]
      rw [exchangeStep, if_neg hv]
      rw [mem_names_addTicker]
      constructor
      · rintro ((h | h) | ⟨u, hu, huval, huname⟩)
        · exact .inl h
        · exact .inr ⟨t, List.mem_cons_self t ts, hval, h.symm⟩
        · exact .inr ⟨u, List.mem_cons_of_mem t hu, huval, huname⟩
      · rintro (h | ⟨u, hu, huval, huname⟩)
        · exact .inl (.inl h)
        · rcases List.mem_cons.mp hu with rfl | hu2
          · exact .inl (.inr huname.symm)
          · exact .inr ⟨u, hu2, huval, huname⟩

/-- A name appears in the aggregated exchange map exactly when some valid
ticker reports that exchange. -/
theorem mem_names_build (ts : List CoinGeckoTicker) (x : String) :
    x ∈ ((buildExchangeMap ts).map (fun e => e.name))
      ↔ ∃ t, t ∈ ts ∧ tickerValid t = true ∧ t.market.name = x := by
  rw [buildExchangeMap, mem_names_foldl]
  simp

theorem nodup_names_addTicker (t : CoinGeckoTicker) (m : List ExchangeVolume)
    (h : (m.map (fun e => e.name)).Nodup) :
    ((addTicker t m).map (fun e => e.name)).Nodup := by
  rw [names_addTicker]
  by_cases hmem : t.market.name ∈ m.map (fun e => e.name)
  · rwa [if_pos hmem]
  · rw [if_neg hmem, List.nodup_append]
    refine ⟨h, List.nodup_singleton _, ?_⟩
    intro a ha hb
    rw [List.mem_singleton] at hb
    exact hmem (hb ▸ ha)

theorem nodup_names_foldl :
    ∀ (ts : List CoinGeckoTicker) (m : List ExchangeVolume),
      (m.map (fun e => e.name)).Nodup →
      ((ts.foldl exchangeStep m).map (fun e => e.name)).Nodup
  | [], _, h => h
  | t :: ts, m, h => by
    rw [List.foldl_cons]
    refine nodup_names_foldl ts (exchangeStep m t) ?_
    by_cases hv : (t.is_anomaly || t.is_stale) = true
    · rwa [exchangeStep, if_pos hv]
    · rw [exchangeStep, if_neg hv]
      exact nodup_names_addTicker t m h

/-- Exchange names are pairwise distinct in the aggregated map. -/
theorem nodup_names_build (ts : List CoinGeckoTicker) :
    ((buildExchangeMap ts).map (fun e => e.name)).Nodup :=
  nodup_names_foldl ts [] (by simp)

/-! ## Helper lemmas: trading pairs in the aggregated map -/

/-- The trading-pair list of the bucket stored under `name` (empty when no
bucket exists). -/
def bucketPairs (m : List ExchangeVolume) (name : String) : List String :=
  match m.find? (fun e => e.name == name) with
  | some e => e.trading_pairs
  | none => []

theorem bucketPairs_nil (name : String) : bucketPairs [] name = [] := rfl

theorem bucketPairs_cons (e : ExchangeVolume) (rest : List ExchangeVolume) (name : String) :
    bucketPairs (e :: rest) name
      = if e.name = name then e.trading_pairs else bucketPairs rest name := by
  by_cases h : e.name = name
  · rw [bucketPairs, List.find?_cons_of_pos _ (by simpa using h), if_pos h]
  · rw [bucketPairs, List.find?_cons_of_neg _ (by simpa using h), if_neg h]
    rfl

theorem mem_bucketPairs_addTicker (t : CoinGeckoTicker) (name p : String) :
    ∀ m, p ∈ bucketPairs (addTicker t m) name
      ↔ p ∈ bucketPairs m name ∨ (t.market.name = name ∧ p = pairLabel t)
  | [] => by
    by_cases h : t.market.name = name
    · simp [addTicker, bucketPairs_cons, bucketPairs_nil, newExchangeEntry_name, h,
        newExchangeEntry, eq_comm]
    · simp [addTicker, bucketPairs_cons, bucketPairs_nil, newExchangeEntry_name, h]
  | e :: rest => by
    by_cases he : e.name = t.market.name
    · by_cases hn : e.name = name
      · have hm : t.market.name = name := he ▸ hn
        have hpairs : p ∈ (updateExchangeEntry e t).trading_pairs
            ↔ p ∈ e.trading_pairs ∨ p = pairLabel t := by
          by_cases hin : pairLabel t ∈ e.trading_pairs
          · simp only [updateExchangeEntry, if_pos hin]
            constructor
            · exact fun h2 => .inl h2
            · rintro (h2 | rfl)
              · exact h2
              · exact hin
          · simp [updateExchangeEntry, if_neg hin]
        simp [addTicker, he.symm, bucketPairs_cons, updateExchangeEntry_name, hn, hm, hpairs]
      · have hm : ¬ t.market.name = name := he ▸ hn
        simp [addTicker, he.symm, bucketPairs_cons, updateExchangeEntry_name, hn, hm]
    · by_cases hn : e.name = name
      · have hm : ¬ t.market.name = name := fun h => he (hn.trans h.symm)
        have he2 : ¬ name = t.market.name := fun h => hm h.symm
        simp [addTicker, he2, bucketPairs_cons, hn, hm]
      · have ih := mem_bucketPairs_addTicker t name p rest
        simp [addTicker, he, bucketPairs_cons, hn, ih]

theorem mem_bucketPairs_foldl (name p : String) :
    ∀ (ts : List CoinGeckoTicker) (m : List ExchangeVolume),
      p ∈ bucketPairs (ts.foldl exchangeStep m) name
        ↔ p ∈ bucketPairs m name
          ∨ ∃ t, t ∈ ts ∧ tickerValid t = true ∧ t.market.name = name ∧ p = pairLabel t
  | [], m => by simp
  | t :: ts, m => by
    rw [List.foldl_cons, mem_bucketPairs_foldl name p ts (exchangeStep m t)]
    by_cases hv : (t.is_anomaly || t.is_stale) = true
    · have hnv : ¬ tickerValid t = true := by simp [tickerValid, hv]
      rw [exchangeStep, if_pos hv]
      constructor
      · rintro (h | ⟨u, hu, hval, hname, hp⟩)
        · exact .inl h
        · exact .inr ⟨u, List.mem_cons_of_mem t hu, hval, hname, hp⟩
      · rintro (h | ⟨u, hu, hval, hname, hp⟩)
        · exact .inl h
        · rcases List.mem_cons.mp hu with rfl | hu2
          · exact absurd hval hnv
          · exact .inr ⟨u, hu2, hval, hname, hp⟩
    · have hval : tickerValid t = true := by simp [tickerValid, hv]
      rw [exchangeStep, if_neg hv, mem_bucketPairs_addTicker]
      constructor
      · rintro ((h | ⟨hname, hp⟩) | ⟨u, hu, huval, huname, hup⟩)
        · exact .inl h
        · exact .inr ⟨t, List.mem_cons_self t ts, hval, hname, hp⟩
        · exact .inr ⟨u, List.mem_cons_of_mem t hu, huval, huname, hup⟩
      · rintro (h | ⟨u, hu, huval, huname, hup⟩)
        · exact .inl (.inl h)
        · rcases List.mem_cons.mp hu with rfl | hu2
          · exact .inl (.inr ⟨huname, hup⟩)
          · exact .inr ⟨u, hu2, huval, huname, hup⟩

/-- A pair label is recorded for an exchange exactly when some valid ticker
for that exchange carries that base/target pair. -/
theorem mem_bucketPairs_build (ts : List CoinGeckoTicker) (name p : String) :
    p ∈ bucketPairs (buildExchangeMap ts) name
      ↔ ∃ t, t ∈ ts ∧ tickerValid t = true ∧ t.market.name = name ∧ p = pairLabel t := by
  rw [buildExchangeMap, mem_bucketPairs_foldl]
  simp [bucketPairs_nil]

/-! ## Helper lemmas: the staleness/anomaly filter -/

/-- The aggregation loop ignores invalid tickers: folding over the raw list
equals folding over the pre-filtered list. -/
theorem foldl_exchangeStep_filter :
    ∀ (ts : List CoinGeckoTicker) (m : List ExchangeVolume),
      ts.foldl exchangeStep m = (ts.filter (fun t => tickerValid t)).foldl exchangeStep m
  | [], _ => rfl
  | t :: ts, m => by
    by_cases hv : (t.is_anomaly || t.is_stale) = true
    · have hnv : tickerValid t = false := by simp [tickerValid, hv]
      rw [List.foldl_cons, List.filter_cons_of_neg (by simp [hnv]),
        exchangeStep, if_pos hv]
      exact foldl_exchangeStep_filter ts m
    · have hval : tickerValid t = true := by simp [tickerValid, hv]
      rw [List.foldl_cons, List.filter_cons_of_pos (by simp [hval]), List.foldl_cons]
      exact foldl_exchangeStep_filter ts (exchangeStep m t)

/-- Dropping stale/anomalous tickers from the input does not change the
snapshot at all. -/
theorem transformVolumeData_filter (now : ℤ) (d : CoinGeckoTickersResponse) :
    transformVolumeData now d
      = transformVolumeData now
          { name := d.name, tickers := d.tickers.filter (fun t => tickerValid t) } := by
  have h : buildExchangeMap d.tickers
      = buildExchangeMap (d.tickers.filter (fun t => tickerValid t)) :=
    foldl_exchangeStep_filter d.tickers []
  simp [transformVolumeData, sortedExchanges, h]

/-! ## Transfer to the sorted list -/

theorem sortedExchanges_perm (ts : List CoinGeckoTicker) :
    (sortedExchanges ts).Perm (buildExchangeMap ts) :=
  List.perm_insertionSort volGe (buildExchangeMap ts)

/-! ## Concrete inputs used by the counterexamples and witnesses -/

/-- A valid single-pair ticker for exchange `nm` with volume `v`. -/
def soloTicker (nm : String) (v : ℚ) : CoinGeckoTicker :=
  { base := "NEAR", target := "USDT", market := { name := nm }, volume := v,
    converted_volume := { usd := v }, trust_score := some "green",
    is_anomaly := false, is_stale := false, trade_url := none }

/-- 25 distinct exchanges with distinct volumes 25, 24, …, 1. -/
def ex25 : CoinGeckoTickersResponse :=
  { name := "NEAR"
    tickers :=
      [soloTicker "E01" 25, soloTicker "E02" 24, soloTicker "E03" 23,
       soloTicker "E04" 22, soloTicker "E05" 21, soloTicker "E06" 20,
       soloTicker "E07" 19, soloTicker "E08" 18, soloTicker "E09" 17,
       soloTicker "E10" 16, soloTicker "E11" 15, soloTicker "E12" 14,
       soloTicker "E13" 13, soloTicker "E14" 12, soloTicker "E15" 11,
       soloTicker "E16" 10, soloTicker "E17" 9, soloTicker "E18" 8,
       soloTicker "E19" 7, soloTicker "E20" 6, soloTicker "E21" 5,
       soloTicker "E22" 4, soloTicker "E23" 3, soloTicker "E24" 2,
       soloTicker "E25" 1] }

/-- 21 distinct exchanges with distinct volumes 21, 20, …, 1. -/
def ex21 : CoinGeckoTickersResponse :=
  { name := "NEAR"
    tickers :=
      [soloTicker "F01" 21, soloTicker "F02" 20, soloTicker "F03" 19,
       soloTicker "F04" 18, soloTicker "F05" 17, soloTicker "F06" 16,
       soloTicker "F07" 15, soloTicker "F08" 14, soloTicker "F09" 13,
       soloTicker "F10" 12, soloTicker "F11" 11, soloTicker "F12" 10,
       soloTicker "F13" 9, soloTicker "F14" 8, soloTicker "F15" 7,
       soloTicker "F16" 6, soloTicker "F17" 5, soloTicker "F18" 4,
       soloTicker "F19" 3, soloTicker "F20" 2, soloTicker "F21" 1] }

/-! ## Claim C1 -/

/-- C1, counterexample. For the 25-exchange input with distinct volumes
25, …, 1, the stored `total_volume_usd` is `325`, the sum over all 25
aggregated exchanges, whereas the sum over the truncated top-20 stored list
is only `310`: the totals are *not* computed over the truncated list. -/
theorem claim_C1_counterexample :
    (transformVolumeData 0 ex25).total_volume_usd = 325
    ∧ (((transformVolumeData 0 ex25).exchanges).map (fun e => e.volume_usd)).sum = 310
    ∧ ((325 : ℚ) ≠ 310) := by
  refine ⟨?_, ?_, by norm_num⟩
  · norm_num [transformVolumeData, sortedExchanges, buildExchangeMap, exchangeStep, addTicker,
      newExchangeEntry, pairLabel, tradeUrlOrUndefined, ex25, soloTicker,
      List.insertionSort, List.orderedInsert, volGe, List.foldl]
  · norm_num [transformVolumeData, sortedExchanges, buildExchangeMap, exchangeStep, addTicker,
      newExchangeEntry, pairLabel, tradeUrlOrUndefined, ex25, soloTicker,
      List.insertionSort, List.orderedInsert, volGe, List.foldl]

/-- C1, amended. The snapshot totals produced by `transformVolumeData` are
the sums over the *full* aggregated exchange list (before truncation to
20): `total_volume_usd` decomposes as the sum over the stored truncated
list plus the sum over the dropped tail, which is nonzero whenever more
than 20 exchanges carry volume. -/
theorem claim_C1_totals_full_list (now : ℤ) (d : CoinGeckoTickersResponse) :
    (transformVolumeData now d).total_volume_usd
        = ((sortedExchanges d.tickers).map (fun e => e.volume_usd)).sum
    ∧ (transformVolumeData now d).total_volume_near
        = ((sortedExchanges d.tickers).map (fun e => e.volume_near)).sum
    ∧ (transformVolumeData now d).total_volume_usd
        = (((transformVolumeData now d).exchanges).map (fun e => e.volume_usd)).sum
          + (((sortedExchanges d.tickers).drop 20).map (fun e => e.volume_usd)).sum := by
  refine ⟨?_, ?_, ?_⟩
  · simp [transformVolumeData, foldl_add_map]
  · simp [transformVolumeData, foldl_add_map]
  · simp only [transformVolumeData]
    rw [foldl_add_map, zero_add]
    conv_lhs => rw [← List.take_append_drop 20 (sortedExchanges d.tickers)]
    rw [List.map_append, List.sum_append]

/-! ## Claim C6 -/

/-- C6. The stored `exchange_count` is the length of the full aggregated
exchange list (whose names are pairwise distinct, and which contains
exactly the exchanges reported by some valid ticker); it is therefore at
least `exchanges.length`, with equality exactly when it is at most 20, and
the stored exchange list is sorted descending by `volume_usd`. -/
theorem claim_C6_count_and_sorted (now : ℤ) (d : CoinGeckoTickersResponse) :
    (transformVolumeData now d).exchange_count = (buildExchangeMap d.tickers).length
    ∧ ((buildExchangeMap d.tickers).map (fun e => e.name)).Nodup
    ∧ (∀ x, x ∈ (buildExchangeMap d.tickers).map (fun e => e.name)
        ↔ ∃ t, t ∈ d.tickers ∧ tickerValid t = true ∧ t.market.name = x)
    ∧ (transformVolumeData now d).exchanges.length ≤ (transformVolumeData now d).exchange_count
    ∧ ((transformVolumeData now d).exchanges.length = (transformVolumeData now d).exchange_count
        ↔ (transformVolumeData now d).exchange_count ≤ 20)
    ∧ (transformVolumeData now d).exchanges.Pairwise volGe := by
  refine ⟨?_, nodup_names_build d.tickers, mem_names_build d.tickers, ?_, ?_, ?_⟩
  · simp only [transformVolumeData]
    exact (sortedExchanges_perm d.tickers).length_eq
  · simp only [transformVolumeData, List.length_take]
    omega
  · simp only [transformVolumeData, List.length_take]
    omega
  · simp only [transformVolumeData]
    exact (List.sorted_insertionSort volGe (buildExchangeMap d.tickers)).sublist
      (List.take_sublist 20 (sortedExchanges d.tickers))

/-! ## Claim C4 -/

/-- First ticker for exchange `X`, trust score `green`. -/
def tX1 : CoinGeckoTicker :=
  { base := "NEAR", target := "USDT", market := { name := "X" }, volume := 1,
    converted_volume := { usd := 1 }, trust_score := some "green",
    is_anomaly := false, is_stale := false, trade_url := none }

/-- Second ticker for exchange `X`, trust score `red`. -/
def tX2 : CoinGeckoTicker :=
  { base := "NEAR", target := "USDC", market := { name := "X" }, volume := 2,
    converted_volume := { usd := 2 }, trust_score := some "red",
    is_anomaly := false, is_stale := false, trade_url := none }

/-- C4, counterexample. Swapping two tickers of the same exchange changes
the snapshot: the exchange's `trust_score` is first-seen, so the two
permuted inputs produce different outputs. -/
theorem claim_C4_counterexample :
    ([tX1, tX2] : List CoinGeckoTicker).Perm [tX2, tX1]
    ∧ ((transformVolumeData 0 { name := "NEAR", tickers := [tX1, tX2] }).exchanges.head?).map
        (fun e => e.trust_score) = some (some "green")
    ∧ ((transformVolumeData 0 { name := "NEAR", tickers := [tX2, tX1] }).exchanges.head?).map
        (fun e => e.trust_score) = some (some "red")
    ∧ transformVolumeData 0 { name := "NEAR", tickers := [tX1, tX2] }
        ≠ transformVolumeData 0 { name := "NEAR", tickers := [tX2, tX1] } := by
  refine ⟨by decide, by decide, by decide, fun heq => ?_⟩
  have h2 : ((transformVolumeData 0 { name := "NEAR", tickers := [tX1, tX2] }).exchanges.head?).map
      (fun e => e.trust_score) = some (some "green") := by decide
  have h3 : ((transformVolumeData 0 { name := "NEAR", tickers := [tX2, tX1] }).exchanges.head?).map
      (fun e => e.trust_score) = some (some "red") := by decide
  rw [heq, h3] at h2
  exact absurd h2 (by decide)

/-- C4, amended. The *aggregation* is permutation-invariant in everything
except first-seen data and tie order: under any permutation of the input
tickers, every exchange keeps the same aggregated USD and home-asset
volumes and the same *set* of trading pairs, and the same exchanges are
present; moreover stale/anomalous tickers never contribute (filtering them
out first changes nothing). Trust score, trade URL, the order of
`trading_pairs`, and the order of equal-volume exchanges are first-seen
dependent, as the counterexample shows. -/
theorem claim_C4_aggregation_perm (d d' : CoinGeckoTickersResponse)
    (hperm : d.tickers.Perm d'.tickers) :
    (∀ name, bucketVal (fun e => e.volume_usd) (buildExchangeMap d.tickers) name
        = bucketVal (fun e => e.volume_usd) (buildExchangeMap d'.tickers) name)
    ∧ (∀ name, bucketVal (fun e => e.volume_near) (buildExchangeMap d.tickers) name
        = bucketVal (fun e => e.volume_near) (buildExchangeMap d'.tickers) name)
    ∧ (∀ name, name ∈ (buildExchangeMap d.tickers).map (fun e => e.name)
        ↔ name ∈ (buildExchangeMap d'.tickers).map (fun e => e.name))
    ∧ (∀ name p, p ∈ bucketPairs (buildExchangeMap d.tickers) name
        ↔ p ∈ bucketPairs (buildExchangeMap d'.tickers) name)
    ∧ (∀ now, transformVolumeData now d
        = transformVolumeData now
            { name := d.name, tickers := d.tickers.filter (fun t => tickerValid t) }) := by
  refine ⟨?_, ?_, ?_, ?_, fun now => transformVolumeData_filter now d⟩
  · intro name
    rw [bucketVal_build _ (fun t => t.converted_volume.usd) (fun _ _ => rfl) (fun _ => rfl),
      bucketVal_build _ (fun t => t.converted_volume.usd) (fun _ _ => rfl) (fun _ => rfl)]
    exact (hperm.map (tickerContrib (fun t => t.converted_volume.usd) name)).sum_eq
  · intro name
    rw [bucketVal_build _ (fun t => t.volume) (fun _ _ => rfl) (fun _ => rfl),
      bucketVal_build _ (fun t => t.volume) (fun _ _ => rfl) (fun _ => rfl)]
    exact (hperm.map (tickerContrib (fun t => t.volume) name)).sum_eq
  · intro name
    rw [mem_names_build, mem_names_build]
    constructor
    · rintro ⟨t, ht, h1, h2⟩
      exact ⟨t, hperm.subset ht, h1, h2⟩
    · rintro ⟨t, ht, h1, h2⟩
      exact ⟨t, hperm.symm.subset ht, h1, h2⟩
  · intro name p
    rw [mem_bucketPairs_build, mem_bucketPairs_build]
    constructor
    · rintro ⟨t, ht, h1, h2, h3⟩
      exact ⟨t, hperm.subset ht, h1, h2, h3⟩
    · rintro ⟨t, ht, h1, h2, h3⟩
      exact ⟨t, hperm.symm.subset ht, h1, h2, h3⟩

/-- C4, witness: the amended theorem applied to the two permuted ticker
lists of the counterexample. -/
theorem claim_C4_witness :
    bucketVal (fun e => e.volume_usd) (buildExchangeMap [tX1, tX2]) "X"
      = bucketVal (fun e => e.volume_usd) (buildExchangeMap [tX2, tX1]) "X"
    ∧ ("X" ∈ (buildExchangeMap [tX1, tX2]).map (fun e => e.name)
        ↔ "X" ∈ (buildExchangeMap [tX2, tX1]).map (fun e => e.name)) := by
  have h := claim_C4_aggregation_perm { name := "NEAR", tickers := [tX1, tX2] }
    { name := "NEAR", tickers := [tX2, tX1] } (by decide)
  exact ⟨h.1 "X", h.2.2.1 "X"⟩

/-! ## Claim C2 -/

/-- `true` exactly when the combined fetch produced a snapshot pair instead
of failing. -/
def cycleSucceeds (r : Except String FetchAllResult) : Bool :=
  match r with
  | .ok _ => true
  | .error _ => false

/-- Price response with a zero BTC reference price. -/
def pZero : CoinGeckoPriceResponse :=
  { near := { usd := 5, usd_market_cap := none, usd_24h_vol := none, usd_24h_change := none }
    bitcoin := { usd := 0 }
    ethereum := { usd := 100 } }

/-- A second price response with a zero BTC reference price. -/
def pZero2 : CoinGeckoPriceResponse :=
  { near := { usd := 7, usd_market_cap := none, usd_24h_vol := none, usd_24h_change := none }
    bitcoin := { usd := 0 }
    ethereum := { usd := 50 } }

/-- Dummy `/coins/near` response. -/
def cDummy : CoinGeckoCoinResponse :=
  { market_cap_rank := 30
    market_data :=
      { ath := { usd := 20 }, ath_change_percentage := { usd := -80 }
        ath_date := { usd := "2022-01-16" }, atl := { usd := 1 }
        atl_change_percentage := { usd := 300 }, high_24h := { usd := 6 }
        low_24h := { usd := 4 }, price_change_percentage_7d := 1
        price_change_percentage_30d := 2, circulating_supply := 1000
        total_supply := 1200, fully_diluted_valuation := { usd := 6000 } } }

/-- Dummy tickers response. -/
def tDummy : CoinGeckoTickersResponse := { name := "NEAR", tickers := [] }

/-- C2, counterexample. With a zero BTC price, `transformPriceData` does
*not* raise: the whole cycle succeeds and a price snapshot is produced
whose `near_btc` cross-rate is the JavaScript division result `Infinity`. -/
theorem claim_C2_counterexample :
    (transformPriceData 0 pZero none).near_btc = JsNum.posInf
    ∧ cycleSucceeds (fetchAllData 0 (.ok pZero) (.ok cDummy) (.ok tDummy)) = true := by
  exact ⟨by decide, by decide⟩

/-- C2, amended. `transformPriceData` contains no zero test: whenever the
BTC reference price is exactly `0` (and the NEAR price is positive), it
still returns a snapshot — the cycle succeeds — and the stored cross-rate
is the IEEE-754 `Infinity` produced by JavaScript division, not an error
and not a coerced zero. -/
theorem claim_C2_no_zero_guard (now : ℤ) (data : CoinGeckoPriceResponse)
    (coinData : Option CoinGeckoCoinResponse)
    (hb : data.bitcoin.usd = 0) (hn : 0 < data.near.usd) :
    (transformPriceData now data coinData).near_btc = JsNum.posInf
    ∧ ∀ (c : CoinGeckoCoinResponse) (t : CoinGeckoTickersResponse),
        cycleSucceeds (fetchAllData now (.ok data) (.ok c) (.ok t)) = true := by
  constructor
  · cases coinData with
    | none => simp [transformPriceData, jsDiv, hb, hn]
    | some c => simp [transformPriceData, jsDiv, hb, hn]
  · intro c t
    rfl

/-- C2, witness: the amended theorem at a concrete zero-BTC response. -/
theorem claim_C2_witness :
    (transformPriceData 0 pZero2 none).near_btc = JsNum.posInf
    ∧ cycleSucceeds (fetchAllData 0 (.ok pZero2) (.ok cDummy) (.ok tDummy)) = true := by
  have h := claim_C2_no_zero_guard 0 pZero2 none (by decide) (by decide)
  exact ⟨h.1, h.2 cDummy tDummy⟩

/-! ## Claim C3 -/

/-- A well-formed price response. -/
def pOk : CoinGeckoPriceResponse :=
  { near := { usd := 3, usd_market_cap := some 3000, usd_24h_vol := some 900,
              usd_24h_change := some 2 }
    bitcoin := { usd := 60000 }
    ethereum := { usd := 2000 } }

/-- C3, counterexample. When the enrichment (`/coins/near`) call fails while
the spot-price and tickers calls succeed, `Promise.all` rejects and the
whole `fetchAllData` cycle fails — the enrichment failure *is* escalated. -/
theorem claim_C3_counterexample :
    fetchAllData 0 (.ok pOk) (.error "enrichment failed") (.ok tDummy)
      = .error "enrichment failed" := rfl

/-- C3, amended. `fetchAllData` combines the three calls with `Promise.all`,
so a failed enrichment call fails the whole cycle; the graceful degradation
lives one level down, in `transformPriceData`, which when given no coin
data still carries every core spot field and leaves every enrichment field
absent. -/
theorem claim_C3_enrichment_escalates (now : ℤ) (p : CoinGeckoPriceResponse) (e : String)
    (t : CoinGeckoTickersResponse) :
    fetchAllData now (.ok p) (.error e) (.ok t) = .error e
    ∧ (transformPriceData now p none).near_usd = p.near.usd
    ∧ (transformPriceData now p none).btc_usd = p.bitcoin.usd
    ∧ (transformPriceData now p none).eth_usd = p.ethereum.usd
    ∧ (transformPriceData now p none).near_btc = jsDiv p.near.usd p.bitcoin.usd
    ∧ (transformPriceData now p none).near_eth = jsDiv p.near.usd p.ethereum.usd
    ∧ (transformPriceData now p none).market_cap = p.near.usd_market_cap
    ∧ (transformPriceData now p none).volume_24h = p.near.usd_24h_vol
    ∧ (transformPriceData now p none).price_change_24h = p.near.usd_24h_change
    ∧ (transformPriceData now p none).market_cap_rank = none
    ∧ (transformPriceData now p none).ath = none
    ∧ (transformPriceData now p none).ath_change_percentage = none
    ∧ (transformPriceData now p none).ath_date = none
    ∧ (transformPriceData now p none).atl = none
    ∧ (transformPriceData now p none).atl_change_percentage = none
    ∧ (transformPriceData now p none).price_change_7d = none
    ∧ (transformPriceData now p none).price_change_30d = none
    ∧ (transformPriceData now p none).high_24h = none
    ∧ (transformPriceData now p none).low_24h = none
    ∧ (transformPriceData now p none).circulating_supply = none
    ∧ (transformPriceData now p none).total_supply = none
    ∧ (transformPriceData now p none).fully_diluted_valuation = none := by
  exact ⟨rfl, rfl, rfl, rfl, rfl, rfl, rfl, rfl, rfl, rfl, rfl, rfl, rfl, rfl, rfl, rfl,
    rfl, rfl, rfl, rfl, rfl, rfl⟩

/-! ## Claim C5 -/

theorem pieEntries_map_pct (total : ℚ) :
    ∀ (i : ℕ) (l : List ExchangeVolume),
      (pieEntries total i l).map (fun p => p.percentage)
        = l.map (fun e => calculatePercentage e.volume_usd total)
  | _, [] => rfl
  | i, e :: rest => by
    simp [pieEntries, pieEntries_map_pct total (i + 1) rest]

theorem sum_map_pct (total : ℚ) (hT : total ≠ 0) :
    ∀ (l : List ExchangeVolume),
      (l.map (fun e => calculatePercentage e.volume_usd total)).sum
        = (l.map (fun e => e.volume_usd)).sum / total * 100
  | [] => by simp
  | e :: rest => by
    rw [List.map_cons, List.sum_cons, List.map_cons, List.sum_cons,
      sum_map_pct total hT rest, calculatePercentage, if_neg hT, add_div, add_mul]

theorem othersVolume_eq (v : VolumeDocument) :
    othersVolume v
      = ((v.exchanges.drop MAX_DISPLAY_EXCHANGES).map (fun e => e.volume_usd)).sum := by
  simp [othersVolume, foldl_add_map]

/-- C5, counterexample. For a snapshot built from 21 exchanges, the stored
total keeps all 21 volumes while only the top 20 are stored and only they
feed the distribution, so the distribution percentages (shown buckets plus
"Others") sum to `23000/231 ≈ 99.57`, off from 100 by far more than the
claimed `0.01` tolerance. -/
theorem claim_C5_counterexample :
    (transformVolumeData 0 ex21).exchange_count = 21
    ∧ ¬ (|((distributionOf (transformVolumeData 0 ex21)).map (fun p => p.percentage)).sum - 100|
          ≤ 1 / 100) := by
  refine ⟨by decide, ?_⟩
  norm_num [distributionOf, transformVolumeData, sortedExchanges, buildExchangeMap, exchangeStep,
    addTicker, newExchangeEntry, pairLabel, tradeUrlOrUndefined, ex21, soloTicker,
    List.insertionSort, List.orderedInsert, volGe, List.foldl, pieEntries, othersVolume,
    calculatePercentage, MAX_DISPLAY_EXCHANGES, EXCHANGE_COLORS, abs_sub_le_iff]
  rw [abs_of_pos (by norm_num)]
  norm_num

/-- C5, amended. Whenever the stored total actually equals the sum of the
stored exchanges' volumes — which `transformVolumeData` guarantees exactly
when at most 20 distinct exchanges contributed — and that total is nonzero,
the distribution built by the volumes route (first 10 exchanges plus an
"Others" bucket) has percentages summing to exactly 100. -/
theorem claim_C5_distribution_sums :
    (∀ (v : VolumeDocument),
        v.total_volume_usd = (v.exchanges.map (fun e => e.volume_usd)).sum →
        v.total_volume_usd ≠ 0 →
        ((distributionOf v).map (fun p => p.percentage)).sum = 100)
    ∧ ∀ (now : ℤ) (d : CoinGeckoTickersResponse),
        (transformVolumeData now d).exchange_count ≤ 20 →
        (transformVolumeData now d).total_volume_usd
          = (((transformVolumeData now d).exchanges).map (fun e => e.volume_usd)).sum := by
  constructor
  · intro v h1 h2
    have hsum : ((v.exchanges.take MAX_DISPLAY_EXCHANGES).map (fun e => e.volume_usd)).sum
        + ((v.exchanges.drop MAX_DISPLAY_EXCHANGES).map (fun e => e.volume_usd)).sum
        = (v.exchanges.map (fun e => e.volume_usd)).sum := by
      conv_rhs => rw [← List.take_append_drop MAX_DISPLAY_EXCHANGES v.exchanges]
      rw [List.map_append, List.sum_append]
    by_cases hlen : MAX_DISPLAY_EXCHANGES < v.exchanges.length
    · simp only [distributionOf, if_pos hlen]
      rw [List.map_append, List.sum_append, pieEntries_map_pct, sum_map_pct _ h2]
      simp only [List.map_cons, List.map_nil, List.sum_cons, List.sum_nil]
      rw [calculatePercentage, if_neg h2, othersVolume_eq, add_zero]
      have harith :
          ((v.exchanges.take MAX_DISPLAY_EXCHANGES).map (fun e => e.volume_usd)).sum
              / v.total_volume_usd * 100
            + ((v.exchanges.drop MAX_DISPLAY_EXCHANGES).map (fun e => e.volume_usd)).sum
              / v.total_volume_usd * 100
          = (((v.exchanges.take MAX_DISPLAY_EXCHANGES).map (fun e => e.volume_usd)).sum
              + ((v.exchanges.drop MAX_DISPLAY_EXCHANGES).map (fun e => e.volume_usd)).sum)
              / v.total_volume_usd * 100 := by
        ring
      rw [harith, hsum, ← h1, div_self h2, one_mul]
    · simp only [distributionOf, if_neg hlen]
      rw [pieEntries_map_pct, sum_map_pct _ h2,
        List.take_of_length_le (Nat.le_of_not_lt hlen), ← h1, div_self h2, one_mul]
  · intro now d hcount
    simp only [transformVolumeData] at hcount ⊢
    rw [foldl_add_map, zero_add, List.take_of_length_le hcount]

/-- Snapshot with two stored exchanges whose volumes add up to the stored
total. -/
def vW : VolumeDocument :=
  { timestamp := 0, total_volume_usd := 4, total_volume_near := 4, exchange_count := 2
    exchanges :=
      [{ name := "A", volume_usd := 3, volume_near := 3, trading_pairs := ["NEAR/USDT"],
         trust_score := some "green", trade_url := none },
       { name := "B", volume_usd := 1, volume_near := 1, trading_pairs := ["NEAR/USDT"],
         trust_score := some "green", trade_url := none }] }

/-- Input with a single exchange, for the second half of the C5 witness. -/
def exW : CoinGeckoTickersResponse := { name := "NEAR", tickers := [soloTicker "binance" 2] }

/-- C5, witness: the amended theorem at a concrete 2-exchange snapshot and
a concrete 1-exchange ticker input. -/
theorem claim_C5_witness :
    ((distributionOf vW).map (fun p => p.percentage)).sum = 100
    ∧ (transformVolumeData 0 exW).total_volume_usd
        = (((transformVolumeData 0 exW).exchanges).map (fun e => e.volume_usd)).sum := by
  exact ⟨claim_C5_distribution_sums.1 vW (by norm_num [vW]) (by norm_num [vW]),
    claim_C5_distribution_sums.2 0 exW (by decide)⟩

/-! ## Claim C7 -/

/-- Latest snapshot of the C7 inputs: 10 minutes old, total volume 5. -/
def docC7a : VolumeDocument :=
  { timestamp := 172200000, total_volume_usd := 5, total_volume_near := 5,
    exchange_count := 0, exchanges := [] }

/-- Oldest-in-window snapshot of the C7 counterexample: 23 hours old, total
volume 0. -/
def docC7z : VolumeDocument :=
  { timestamp := 90000000, total_volume_usd := 0, total_volume_near := 0,
    exchange_count := 0, exchanges := [] }

/-- Oldest-in-window snapshot of the C7 witness: 23 hours old, total
volume 4. -/
def docC7b : VolumeDocument :=
  { timestamp := 90000000, total_volume_usd := 4, total_volume_near := 4,
    exchange_count := 0, exchanges := [] }

/-- C7, counterexample. When the oldest snapshot in the 24-hour window has a
zero total, the route's truthiness guard silently reports a change of `0`,
although an earliest-in-window snapshot exists and the claimed formula
`(latest - earliest) / earliest * 100`, evaluated as JavaScript would, is
`Infinity`, not `0`. -/
theorem claim_C7_counterexample :
    volumeChange24h [docC7a, docC7z] 172800000 = some 0
    ∧ oldestVolumeSince [docC7a, docC7z] (172800000 - 24 * 60 * 60 * 1000) = some docC7z
    ∧ latestVolume [docC7a, docC7z] = some docC7a
    ∧ docC7z.total_volume_usd = 0
    ∧ docC7a.total_volume_usd = 5
    ∧ specChangeFormula docC7a.total_volume_usd docC7z.total_volume_usd = JsNum.posInf := by
  refine ⟨by decide, by decide, by decide, by decide, by decide, ?_⟩
  norm_num [docC7a, docC7z, specChangeFormula, jsDiv, jsMulPos]

/-- C7, amended. The 24-hour change returned by the volumes route is
`(latest - earliest_in_window) / earliest_in_window * 100` whenever the
oldest snapshot at or after the window start exists *and* has a nonzero
total; it is `0` both when no snapshot falls in the window and (the guard
the claim omits) when the earliest-in-window total is `0`. -/
theorem claim_C7_percent_change (docs : List VolumeDocument) (now : ℤ)
    (latest : VolumeDocument) (hl : latestVolume docs = some latest) :
    (∀ o, oldestVolumeSince docs (now - 24 * 60 * 60 * 1000) = some o →
        o.total_volume_usd ≠ 0 →
        volumeChange24h docs now
          = some ((latest.total_volume_usd - o.total_volume_usd) / o.total_volume_usd * 100))
    ∧ (oldestVolumeSince docs (now - 24 * 60 * 60 * 1000) = none →
        volumeChange24h docs now = some 0)
    ∧ (∀ o, oldestVolumeSince docs (now - 24 * 60 * 60 * 1000) = some o →
        o.total_volume_usd = 0 →
        volumeChange24h docs now = some 0) := by
  refine ⟨?_, ?_, ?_⟩
  · intro o ho hne
    norm_num at ho
    simp [volumeChange24h, hl, ho, hne]
  · intro ho
    norm_num at ho
    simp [volumeChange24h, hl, ho]
  · intro o ho hz
    norm_num at ho
    simp [volumeChange24h, hl, ho, hz]

/-- C7, witness: scenario C — one snapshot 10 minutes old with total 5 and
one 23 hours old with total 4 give a 24-hour change of 25 percent. -/
theorem claim_C7_witness :
    volumeChange24h [docC7a, docC7b] 172800000 = some 25 := by
  have h := (claim_C7_percent_change [docC7a, docC7b] 172800000 docC7a (by decide)).1
    docC7b (by decide) (by decide)
  rw [h]
  norm_num [docC7a, docC7b]

/-! ## Claim C8 -/

/-- C8, counterexample. A call that finds the counter saturated (25 calls,
window not yet expired) waits, *resets the counter to zero*, and proceeds
without ever incrementing: after the call the shared counter is `0`, not
`1`, so this call is not counted at all. -/
theorem claim_C8_counterexample :
    rateLimitPrelude 0 { callCount := 25, lastResetTime := 0 }
      = (60100, { callCount := 0, lastResetTime := 60100 })
    ∧ (rateLimitPrelude 0 { callCount := 25, lastResetTime := 0 }).2.callCount ≠ 1 := by
  exact ⟨by decide, by decide⟩

/-- C8, amended. The rate-limit bookkeeping of `fetchFromCoinGecko`
increments the shared counter exactly once for a call that proceeds
immediately (to `1` when the window had expired, since expiry resets the
counter to zero first); but a call that finds the counter saturated waits
for the window, resets the counter to zero and proceeds *without*
incrementing; a retry after a 429 re-enters the prelude after the wait
reset the counter, and so increments it to exactly `1`. -/
theorem claim_C8_counter (now : ℤ) (s : RateLimitState) :
    (now - s.lastResetTime ≤ RESET_INTERVAL → s.callCount < CALLS_PER_MINUTE →
        (rateLimitPrelude now s).2.callCount = s.callCount + 1)
    ∧ (RESET_INTERVAL < now - s.lastResetTime →
        (rateLimitPrelude now s).2.callCount = 1)
    ∧ (now - s.lastResetTime ≤ RESET_INTERVAL → CALLS_PER_MINUTE ≤ s.callCount →
        0 < RESET_INTERVAL - (now - s.lastResetTime) →
        (rateLimitPrelude now s).2.callCount = 0)
    ∧ (0 < RESET_INTERVAL - (now - s.lastResetTime) →
        (retryAfter429 now s).2.callCount = 1) := by
  refine ⟨?_, ?_, ?_, ?_⟩
  · intro hw hc
    simp [rateLimitPrelude, checkRateLimit, not_lt.mpr hw, Nat.not_le.mpr hc]
  · intro he
    simp [rateLimitPrelude, checkRateLimit, he, CALLS_PER_MINUTE]
  · intro hw hc ht
    simp [rateLimitPrelude, checkRateLimit, waitForRateLimit, not_lt.mpr hw, hc, ht]
  · intro ht
    have hri : (RESET_INTERVAL : ℤ) = 60000 := by norm_num [RESET_INTERVAL]
    rw [hri] at ht
    have ht2 : now - s.lastResetTime < 60000 := by omega
    simp [retryAfter429, waitForRateLimit, RESET_INTERVAL, ht2, rateLimitPrelude,
      checkRateLimit, CALLS_PER_MINUTE]

/-- C8, witness: the amended theorem at concrete states — an immediate call
(counter 3 → 4), a call after window expiry (counter 7 → 1), a saturated
call (counter 25 → 0), and a 429 retry (counter → 1). -/
theorem claim_C8_witness :
    (rateLimitPrelude 10 { callCount := 3, lastResetTime := 0 }).2.callCount = 3 + 1
    ∧ (rateLimitPrelude 70000 { callCount := 7, lastResetTime := 0 }).2.callCount = 1
    ∧ (rateLimitPrelude 30000 { callCount := 25, lastResetTime := 0 }).2.callCount = 0
    ∧ (retryAfter429 30000 { callCount := 25, lastResetTime := 0 }).2.callCount = 1 := by
  refine ⟨(claim_C8_counter 10 _).1 (by decide) (by decide),
    (claim_C8_counter 70000 _).2.1 (by decide),
    (claim_C8_counter 30000 _).2.2.1 (by decide) (by decide) (by decide),
    (claim_C8_counter 30000 _).2.2.2 (by decide)⟩

/-! ## Claim C9 -/

theorem jsSetDedupAux_sublist : ∀ (l seen : List ℤ), (jsSetDedupAux seen l).Sublist l
  | [], _ => List.Sublist.refl _
  | x :: xs, seen => by
    rw [jsSetDedupAux]
    by_cases h : x ∈ seen
    · rw [if_pos h]
      exact (jsSetDedupAux_sublist xs seen).cons x
    · rw [if_neg h]
      exact (jsSetDedupAux_sublist xs (x :: seen)).cons₂ x

theorem mem_jsSetDedupAux : ∀ (l seen : List ℤ) (x : ℤ),
    x ∈ jsSetDedupAux seen l ↔ x ∈ l ∧ x ∉ seen
  | [], seen, x => by simp [jsSetDedupAux]
  | y :: ys, seen, x => by
    rw [jsSetDedupAux]
    by_cases h : y ∈ seen
    · rw [if_pos h, mem_jsSetDedupAux ys seen x]
      constructor
      · rintro ⟨h1, h2⟩
        exact ⟨List.mem_cons_of_mem y h1, h2⟩
      · rintro ⟨h1, h2⟩
        rcases List.mem_cons.mp h1 with rfl | h3
        · exact absurd h h2
        · exact ⟨h3, h2⟩
    · rw [if_neg h, List.mem_cons, mem_jsSetDedupAux ys (y :: seen) x]
      constructor
      · rintro (heq | ⟨h1, h2⟩)
        · exact ⟨List.mem_cons.mpr (Or.inl heq), fun hx => h (heq ▸ hx)⟩
        · exact ⟨List.mem_cons_of_mem y h1,
            fun hx => h2 (List.mem_cons_of_mem y hx)⟩
      · rintro ⟨h1, h2⟩
        by_cases hxy : x = y
        · exact .inl hxy
        · rcases List.mem_cons.mp h1 with rfl | h3
          · exact absurd rfl hxy
          · exact .inr ⟨h3, fun hx => (List.mem_cons.mp hx).elim hxy h2⟩

theorem nodup_jsSetDedupAux : ∀ (l seen : List ℤ), (jsSetDedupAux seen l).Nodup
  | [], _ => List.nodup_nil
  | y :: ys, seen => by
    rw [jsSetDedupAux]
    by_cases h : y ∈ seen
    · rw [if_pos h]
      exact nodup_jsSetDedupAux ys seen
    · rw [if_neg h, List.nodup_cons]
      refine ⟨fun hy => ?_, nodup_jsSetDedupAux ys (y :: seen)⟩
      exact ((mem_jsSetDedupAux ys (y :: seen) y).mp hy).2 (List.mem_cons_self y seen)

theorem floorSec_mono {a b : ℤ} (h : a ≤ b) : floorSec a ≤ floorSec b := by
  apply Int.floor_mono
  have h2 : (a : ℚ) ≤ (b : ℚ) := by exact_mod_cast h
  gcongr

/-- C9. For snapshots retrieved in ascending timestamp order, the exchange
time series built by the exchange-history route has exactly one point per
snapshot for every exchange (so all series lengths are equal and equal to
the number of snapshots); any selected top exchange absent from a given
snapshot's stored exchange list gets the value `0` at that snapshot; and
the `timestamps` field is the strictly ascending deduplication of the
snapshots' (per-second) timestamps. -/
theorem claim_C9_series (docs : List VolumeDocument) (limit : ℕ)
    (hsort : (docs.map (fun d => d.timestamp)).Pairwise (· ≤ ·)) :
    (∀ name, (seriesFor docs name).length = docs.length)
    ∧ (∀ name d, name ∈ topExchangeNames docs limit → d ∈ docs →
        name ∉ d.exchanges.map (fun e => e.name) → exVolumeAt d name = 0)
    ∧ (responseTimestamps docs).Pairwise (· < ·)
    ∧ (∀ t, t ∈ responseTimestamps docs ↔ t ∈ docs.map (fun d => floorSec d.timestamp)) := by
  refine ⟨fun name => List.length_map docs _, ?_, ?_, ?_⟩
  · intro name d _ _ hnot
    rw [exVolumeAt]
    have hfind : d.exchanges.reverse.find? (fun e => e.name == name) = none := by
      rw [List.find?_eq_none]
      intro e he
      simp only [beq_iff_eq]
      intro heq
      exact hnot (List.mem_map.mpr ⟨e, List.mem_reverse.mp he, heq⟩)
    rw [hfind]
  · have hle : (docs.map (fun d => floorSec d.timestamp)).Pairwise (· ≤ ·) := by
      rw [List.pairwise_map]
      exact (List.pairwise_map.mp hsort).imp (fun h => floorSec_mono h)
    have hsub : (responseTimestamps docs).Sublist (docs.map (fun d => floorSec d.timestamp)) :=
      jsSetDedupAux_sublist _ []
    have hle2 : (responseTimestamps docs).Pairwise (· ≤ ·) := hle.sublist hsub
    have hnd : (responseTimestamps docs).Nodup := nodup_jsSetDedupAux _ []
    exact List.Sorted.lt_of_le hle2 hnd
  · intro t
    rw [responseTimestamps, jsSetDedup, mem_jsSetDedupAux]
    simp

/-- Two concrete snapshots for the C9 witness: `Binance` appears only in the
first, `Kraken` only in the second. -/
def docW1 : VolumeDocument :=
  { timestamp := 1000, total_volume_usd := 5, total_volume_near := 5, exchange_count := 1
    exchanges := [{ name := "Binance", volume_usd := 5, volume_near := 5,
                    trading_pairs := ["NEAR/USDT"], trust_score := some "green",
                    trade_url := none }] }

/-- Second C9 witness snapshot. -/
def docW2 : VolumeDocument :=
  { timestamp := 2000, total_volume_usd := 3, total_volume_near := 3, exchange_count := 1
    exchanges := [{ name := "Kraken", volume_usd := 3, volume_near := 3,
                    trading_pairs := ["NEAR/USD"], trust_score := some "green",
                    trade_url := none }] }

/-- C9, witness: the theorem applied to two concrete snapshots; `Binance` is
a selected top exchange, is absent from the second snapshot, and gets value
`0` there; the response timestamps are strictly ascending. -/
theorem claim_C9_witness :
    (seriesFor [docW1, docW2] "Binance").length = ([docW1, docW2] : List VolumeDocument).length
    ∧ exVolumeAt docW2 "Binance" = 0
    ∧ (responseTimestamps [docW1, docW2]).Pairwise (· < ·) := by
  have h := claim_C9_series [docW1, docW2] 5 (by decide)
  exact ⟨h.1 "Binance", h.2.1 "Binance" docW2 (by decide) (by decide) (by decide), h.2.2.1⟩

/-! ## Claim C10 -/

theorem pct_pieEntries_zero : ∀ (i : ℕ) (l : List ExchangeVolume) (p : ExchangePieData),
    p ∈ pieEntries 0 i l → p.percentage = 0
  | _, [], p => by simp [pieEntries]
  | i, e :: rest, p => by
    rw [pieEntries]
    intro hp
    rcases List.mem_cons.mp hp with rfl | h2
    · simp [calculatePercentage]
    · exact pct_pieEntries_zero (i + 1) rest p h2

/-- C10. `calculatePercentage` guards against a zero denominator and returns
`0`; consequently every bucket of a distribution built from a snapshot
whose `total_volume_usd` is `0` (including the "Others" bucket) reports a
percentage of `0` rather than failing or producing an undefined value. -/
theorem claim_C10_zero_total_guard :
    (∀ v : ℚ, calculatePercentage v 0 = 0)
    ∧ ∀ (v : VolumeDocument), v.total_volume_usd = 0 →
        ∀ p, p ∈ distributionOf v → p.percentage = 0 := by
  constructor
  · intro v
    simp [calculatePercentage]
  · intro v hv p hp
    simp only [distributionOf, hv] at hp
    by_cases hlen : MAX_DISPLAY_EXCHANGES < v.exchanges.length
    · rw [if_pos hlen] at hp
      rcases List.mem_append.mp hp with h2 | h2
      · exact pct_pieEntries_zero _ _ p h2
      · rw [List.mem_singleton] at h2
        subst h2
        simp [calculatePercentage]
    · rw [if_neg hlen] at hp
      exact pct_pieEntries_zero _ _ p hp

/-- Snapshot with a zero stored total. -/
def vZ : VolumeDocument :=
  { timestamp := 0, total_volume_usd := 0, total_volume_near := 0, exchange_count := 1
    exchanges := [{ name := "X", volume_usd := 3, volume_near := 2,
                    trading_pairs := ["NEAR/USDT"], trust_score := none,
                    trade_url := none }] }

/-- C10, witness: `calculatePercentage 7 0 = 0`, and the bucket the route
builds for `vZ`'s single exchange carries percentage `0`. -/
theorem claim_C10_witness :
    calculatePercentage 7 0 = 0
    ∧ ({ name := "X", value := 3, percentage := calculatePercentage 3 0,
         color := some "#58a6ff" } : ExchangePieData).percentage = 0 := by
  refine ⟨claim_C10_zero_total_guard.1 7, claim_C10_zero_total_guard.2 vZ (by decide) _ ?_⟩
  decide
